import Mathlib

/-!
Shallow embedding of the appointment-booking core of the PsikologSitesi
repository: the Mongoose `Appointment` model (schema virtuals, validators,
the pre-save hook and the instance methods), the Express appointment routes
(create, update, cancel, confirm, complete, available-slots), and the
`ReminderJob` sweeps (dispatch and cleanup).

Timestamps are modelled as integer minutes on a single global timeline.
The `date` field of an appointment is the midnight instant of its calendar
day (the code stores `new Date("YYYY-MM-DD")`, i.e. midnight).  The `time`
field is kept as the stored STRING: the validation regex admits both
one-digit and zero-padded hours ("9:00" and "09:00" are distinct values
that parse to the same clock time), the conflict queries compare this field
by exact string equality, and the virtuals parse it with split/parseInt.
Millisecond quantities in the code (`24 * 60 * 60 * 1000` etc.) become the
corresponding minute counts; a float comparison such as
`hoursUntilAppointment > 24` (with `hoursUntilAppointment = msDiff / 3.6e6`)
is exactly `minuteDiff > 1440`, with no rounding involved.

Every document save (`this.save()` inside the cancel/confirm/complete
methods and the reminder job's mark-sent save) re-runs the pre-save hook of
the schema, which rejects an out-of-hours start or a start not strictly in
the future; a rejected save throws, the surrounding handler catches, and
nothing is persisted.  Update queries (findByIdAndUpdate, updateMany) do
not run the hook.  The email collaborator may fail independently per call;
a dispatch failure skips the mark-sent step, so it is modelled as a Boolean
per-appointment delivery outcome.
-/

namespace Clinic

/-- Appointment status enum of the Mongoose schema:
scheduled, confirmed, completed, cancelled, no-show. -/
inductive Status where
  | scheduled
  | confirmed
  | completed
  | cancelled
  | noShow
deriving DecidableEq

/-- Session type enum: individual, couple, online, in-person. -/
inductive SessionType where
  | individual
  | couple
  | online
  | inPerson
deriving DecidableEq

/-- Reminder channel enum of the embedded reminder sub-document. -/
inductive RType where
  | email
  | sms
deriving DecidableEq

/-- Embedded reminder sub-document: channel, sent flag, optional sentAt
timestamp, scheduledFor timestamp (minutes). -/
structure Reminder where
  rtype : RType
  sent : Bool
  sentAt : Option Int
  scheduledFor : Int
deriving DecidableEq

/-- One appointment document, with the fields the routes and jobs touch.
`date` is the midnight instant of the calendar day, in minutes; `time` is
the stored "HH:MM" string (compared verbatim by the conflict queries). -/
structure Appt where
  id : Nat
  user : Nat
  date : Int
  time : String
  type : SessionType
  status : Status
  duration : Int
  notes : String
  price : Int
  reminders : List Reminder
  cancellationReason : Option String
  cancelledAt : Option Int
  cancelledBy : Option Nat
  sessionNotes : Option String
deriving DecidableEq

/-- Decimal value of a digit list, as parseInt reads an all-digit part. -/
def digitsToNat (cs : List Char) : Nat :=
  cs.foldl (fun acc c => acc * 10 + (c.toNat - 48)) 0

/-- The hour part: parseInt of the text before the first colon
(`time.split(':')[0]`). -/
def timeHours (s : String) : Nat :=
  digitsToNat (s.toList.takeWhile (fun c => !(c == ':')))

/-- The minute part: parseInt of the text after the first colon
(`time.split(':')[1]`). -/
def timeMinutes (s : String) : Nat :=
  digitsToNat ((s.toList.dropWhile (fun c => !(c == ':'))).drop 1)

/-- Minutes since midnight read from the stored time string. -/
def parsedMinutes (s : String) : Int :=
  (timeHours s : Int) * 60 + (timeMinutes s : Int)

/-- Virtual `datetime`: the appointment date with the parsed HH:MM time
applied (`date.setHours(hours, minutes, 0, 0)`). -/
def Appt.datetime (a : Appt) : Int :=
  a.date + parsedMinutes a.time

/-- Virtual `endTime`: `datetime + duration * 60000` ms, i.e. start plus
duration minutes. -/
def Appt.endTime (a : Appt) : Int :=
  a.datetime + a.duration

/-- An active appointment: status scheduled or confirmed (the
status-in-scheduled/confirmed filter used throughout). -/
def isActive (s : Status) : Bool :=
  s == Status.scheduled || s == Status.confirmed

/-- Left-pad to two digits, as padStart with a zero does in the slot loop. -/
def pad2 (n : Nat) : String :=
  if n < 10 then "0" ++ toString n else toString n

/-- The zero-padded "HH:MM" string built by the slot loop. -/
def slotString (hour minute : Nat) : String :=
  pad2 hour ++ ":" ++ pad2 minute

/-- The time regex of the schema and both routes,
matching an optionally padded hour 0-23, a colon, and a two-digit minute
00-59.  It accepts "9:00" and "09:00" alike. -/
def timeRegexOk (s : String) : Bool :=
  match s.toList with
  | [h1, c, m1, m2] =>
      (c == ':') && h1.isDigit &&
      (decide ('0' ≤ m1) && decide (m1 ≤ '5')) && m2.isDigit
  | [h1, h2, c, m1, m2] =>
      (c == ':') &&
      (((h1 == '0' || h1 == '1') && h2.isDigit) ||
        (h1 == '2' && decide ('0' ≤ h2) && decide (h2 ≤ '3'))) &&
      (decide ('0' ≤ m1) && decide (m1 ≤ '5')) && m2.isDigit
  | _ => false

/-- Values of a C-style `for (v = cur; v < stop; v += step)` loop, with
explicit fuel (the fuel is an upper bound on the iteration count). -/
def strideAux : Nat → Nat → Nat → Nat → List Nat
  | 0, _, _, _ => []
  | fuel + 1, cur, stop, step =>
      if cur < stop then cur :: strideAux fuel (cur + step) stop step else []

/-- Values taken by `for (v = start; v < stop; v += step)`. -/
def strideUpto (start stop step : Nat) : List Nat :=
  strideAux stop start stop step

/-- The slot template of GET /available-slots: the nested loop
`for (hour = 9; hour < 22; hour++) for (minute = 0; minute < 60; minute += 50)`
pushing padded `HH:MM` strings. -/
def generateAllSlots : List String :=
  (strideUpto 9 22 1).flatMap (fun hour =>
    (strideUpto 0 60 50).map (fun minute => slotString hour minute))

/-- GET /available-slots: fetch the appointments of the date with status in
scheduled/confirmed (`date: { $gte: date, $lt: nextDay }`), then filter the
template by the taken time strings (verbatim string membership). -/
def availableSlots (store : List Appt) (d : Int) : List String :=
  let existing := store.filter (fun a =>
    decide (d ≤ a.date) && decide (a.date < d + 1440) && isActive a.status)
  let takenSlots := existing.map (fun a => a.time)
  generateAllSlots.filter (fun slot => !(takenSlots.contains slot))

/-- Conflict query of POST /appointments: some appointment at the exact
(date, time) with status in scheduled/confirmed, regardless of user.  The
time comparison is exact STRING equality, as in the findOne filter. -/
def hasActiveAt (store : List Appt) (d : Int) (t : String) : Bool :=
  store.any (fun b => b.date == d && b.time == t && isActive b.status)

/-- Conflict query of PUT /appointments/:id: same exact-string comparison,
excluding the appointment being updated via the id filter. -/
def hasActiveAtExcluding (store : List Appt) (selfId : Nat) (d : Int) (t : String) : Bool :=
  store.any (fun b => b.id != selfId && b.date == d && b.time == t && isActive b.status)

/-- Reminder records attached by POST /appointments: start minus 24h, then
start minus 2h, each pushed only when strictly later than now. -/
def mkReminders (now start : Int) : List Reminder :=
  (if start - 1440 > now then [⟨RType.email, false, none, start - 1440⟩] else []) ++
  (if start - 120 > now then [⟨RType.email, false, none, start - 120⟩] else [])

/-- Express-validator checks of POST /appointments: date in the strict
future, time matching the HH:MM regex, duration 30-120, price at least 0,
notes at most 1000 characters. -/
def routeValidCreate (now d : Int) (t : String) (dur price : Int) (notes : String) : Bool :=
  decide (now < d) && timeRegexOk t &&
  decide (30 ≤ dur) && decide (dur ≤ 120) && decide (0 ≤ price) &&
  decide (notes.length ≤ 1000)

/-- The pre-save hook of the schema, run on EVERY document save: the parsed
start hour must lie within 9-21 and the parsed datetime must be strictly in
the future.  A failing hook makes the save throw and nothing persists. -/
def preSaveHookOk (now : Int) (a : Appt) : Bool :=
  decide (9 ≤ timeHours a.time) && decide (timeHours a.time ≤ 21) &&
  decide (now < a.datetime)

/-- Save-time checks at creation: the date-field validator (date strictly
in the future, the path is modified so the validator runs) plus the
pre-save hook. -/
def preSaveValid (now : Int) (a : Appt) : Bool :=
  decide (now < a.date) && preSaveHookOk now a

/-- Outcome of POST /appointments: 400 validation failure, 409 conflict, or
201 with the created appointment. -/
inductive CreateResult where
  | invalid
  | conflict
  | created (a : Appt)
deriving DecidableEq

/-- The appointment document constructed by POST /appointments: status
defaults to scheduled, the reminder records are pushed before save. -/
def newAppt (now : Int) (newId user : Nat) (d : Int) (t : String)
    (ty : SessionType) (dur : Int) (notes : String) (price : Int) : Appt :=
  { id := newId, user := user, date := d, time := t, type := ty,
    status := .scheduled, duration := dur, notes := notes, price := price,
    reminders := mkReminders now (d + parsedMinutes t),
    cancellationReason := none, cancelledAt := none, cancelledBy := none,
    sessionNotes := none }

/-- POST /appointments: validate, check the slot conflict query, construct
the appointment in status scheduled with its reminder records, save. -/
def createAppointment (now : Int) (store : List Appt) (newId user : Nat)
    (d : Int) (t : String) (ty : SessionType) (dur : Int) (notes : String)
    (price : Int) : CreateResult :=
  if !routeValidCreate now d t dur price notes then .invalid
  else if hasActiveAt store d t then .conflict
  else if !preSaveValid now (newAppt now newId user d t ty dur notes price) then .invalid
  else .created (newAppt now newId user d t ty dur notes price)

/-- Method canBeCancelled: more than 24 hours until start and status still
scheduled (hoursUntilAppointment strictly above 24, status equal to scheduled). -/
def canBeCancelled (now : Int) (a : Appt) : Bool :=
  decide (a.datetime - now > 1440) && a.status == Status.scheduled

/-- Method canBeRescheduled: more than 12 hours until start and status
still scheduled. -/
def canBeRescheduled (now : Int) (a : Appt) : Bool :=
  decide (a.datetime - now > 720) && a.status == Status.scheduled

/-- Field mutation of the cancel method: set status cancelled and record
reason, timestamp and acting user (the save and its hook are modelled at
the route). -/
def Appt.cancelMethod (a : Appt) (now : Int) (reason : String) (actor : Nat) : Appt :=
  { a with
      status := .cancelled
      cancellationReason := some reason
      cancelledAt := some now
      cancelledBy := some actor }

/-- Outcome of POST /appointments/:id/cancel: 400, 403, a 500 from a save
rejected by the pre-save hook (nothing persisted), or 200. -/
inductive CancelResult where
  | invalid
  | policyViolation
  | saveError
  | done (a : Appt)
deriving DecidableEq

/-- POST /appointments/:id/cancel: validate the reason (non-empty, at most
500 characters), gate on canBeCancelled (403 otherwise), then run the
cancel method, whose save re-runs the pre-save hook: a failing hook throws
into the catch-all (500) and persists nothing. -/
def cancelRoute (now : Int) (a : Appt) (reason : String) (actor : Nat) : CancelResult :=
  if !(decide (1 ≤ reason.length) && decide (reason.length ≤ 500)) then .invalid
  else if !canBeCancelled now a then .policyViolation
  else if !preSaveHookOk now a then .saveError
  else .done (a.cancelMethod now reason actor)

/-- Body of PUT /appointments/:id: each field optional; time is the raw
string. -/
structure Patch where
  date : Option Int
  time : Option String
  type : Option SessionType
  duration : Option Int
  notes : Option String
  price : Option Int
deriving DecidableEq

/-- Express-validator checks of PUT /appointments/:id on the present
fields (the date check of the route is format-only, with no future check). -/
def patchValid (p : Patch) : Bool :=
  (match p.time with | some t => timeRegexOk t | none => true) &&
  (match p.duration with | some dur => decide (30 ≤ dur) && decide (dur ≤ 120) | none => true) &&
  (match p.price with | some pr => decide (0 ≤ pr) | none => true) &&
  (match p.notes with | some s => decide (s.length ≤ 1000) | none => true)

/-- Schema validators re-run by findByIdAndUpdate with runValidators on the
updated paths; of these only the date-future validator adds a check beyond
the route validation.  The pre-save hook does NOT run on update queries,
so an out-of-hours time can be stored through this path. -/
def updateValidatorsOk (now : Int) (p : Patch) : Bool :=
  match p.date with
  | some d2 => decide (now < d2)
  | none => true

/-- Field application of PUT /appointments/:id.  Each present field
overwrites, except that the code guards duration and price with JavaScript
truthiness, so a zero value is skipped; notes uses an explicit undefined
check and is always applied when present. -/
def applyPatch (a : Appt) (p : Patch) : Appt :=
  { a with
    date := p.date.getD a.date,
    time := p.time.getD a.time,
    type := p.type.getD a.type,
    duration := match p.duration with
      | some dur => if dur == 0 then a.duration else dur
      | none => a.duration,
    notes := p.notes.getD a.notes,
    price := match p.price with
      | some pr => if pr == 0 then a.price else pr
      | none => a.price }

/-- Outcome of PUT /appointments/:id. -/
inductive UpdateResult where
  | invalid
  | policyViolation
  | conflict
  | updated (a : Appt)
deriving DecidableEq

/-- PUT /appointments/:id: validate, gate unconditionally on
canBeRescheduled (403 otherwise), re-check the conflict query against the
new slot only when date or time is being changed (excluding the appointment
itself; exact string comparison on time), then apply the patch. -/
def updateAppointment (now : Int) (store : List Appt) (a : Appt) (p : Patch) : UpdateResult :=
  if !patchValid p then .invalid
  else if !canBeRescheduled now a then .policyViolation
  else if (p.date.isSome || p.time.isSome) &&
      hasActiveAtExcluding store a.id (p.date.getD a.date) (p.time.getD a.time) then .conflict
  else if !updateValidatorsOk now p then .invalid
  else .updated (applyPatch a p)

/-- Matcher for the $lt-on-sentAt condition; a missing sentAt matches
nothing. -/
def sentAtBefore (r : Reminder) (cutoff : Int) : Bool :=
  match r.sentAt with
  | some v => decide (v < cutoff)
  | none => false

/-- Reminder pruning of cleanupOldReminders: pull every reminder with
sent = true and sentAt older than 7 days (10080 minutes).  The updateMany
filter matches its two conditions against possibly different array
elements, but a document with no element satisfying both has nothing
pulled, so the net effect is exactly this per-element filter. -/
def pruneOld (now : Int) (rs : List Reminder) : List Reminder :=
  rs.filter (fun r => !(r.sent && sentAtBefore r (now - 10080)))

/-- First updateMany of cleanupOldReminders, per document (update queries
bypass the pre-save hook). -/
def prunePass (now : Int) (a : Appt) : Appt :=
  { a with reminders := pruneOld now a.reminders }

/-- Second updateMany of cleanupOldReminders, per document: set status to
no-show when the date field is earlier than one hour ago (now - 60) and the
status is still scheduled or confirmed.  Note the code compares the date
field (midnight of the day), not the endTime virtual. -/
def noShowPass (now : Int) (a : Appt) : Appt :=
  if decide (a.date < now - 60) && isActive a.status then
    { a with status := Status.noShow }
  else a

/-- cleanupOldReminders: both updateMany calls applied across the store. -/
def cleanupSweep (now : Int) (store : List Appt) : List Appt :=
  (store.map (prunePass now)).map (noShowPass now)

/-- Mark-sent mutation: the first reminder with sent = false and
scheduledFor <= now gets its sent flag and sentAt set; later records are
untouched. -/
def flipFirstDue (now : Int) : List Reminder → List Reminder
  | [] => []
  | r :: rest =>
      if !r.sent && decide (r.scheduledFor ≤ now) then
        { r with sent := true, sentAt := some now } :: rest
      else r :: flipFirstDue now rest

/-- The active appointments of the store occupying a given date and exact
time string. -/
def activeAt (store : List Appt) (d : Int) (t : String) : List Appt :=
  store.filter (fun b => b.date == d && b.time == t && isActive b.status)

/-- Slot-uniqueness invariant at string granularity: at most one active
appointment per (date, time-string) pair. -/
def atMostOneActivePerSlot (store : List Appt) : Prop :=
  ∀ d t, (activeAt store d t).length ≤ 1

lemma pruneOld_idem (now : Int) (rs : List Reminder) :
    pruneOld now (pruneOld now rs) = pruneOld now rs := by
  unfold pruneOld
  induction rs with
  | nil => rfl
  | cons r rest ih =>
      rw [List.filter_cons]
      by_cases h : (!(r.sent && sentAtBefore r (now - 10080))) = true
      · rw [if_pos h, List.filter_cons, if_pos h, ih]
      · rw [if_neg h, ih]

lemma prunePass_idem (now : Int) (a : Appt) :
    prunePass now (prunePass now a) = prunePass now a := by
  simp [prunePass, pruneOld_idem]

lemma cleanup_elem_idem (now : Int) (a : Appt) :
    noShowPass now (prunePass now (noShowPass now (prunePass now a))) =
      noShowPass now (prunePass now a) := by
  set b := prunePass now a with hb
  have hpb : prunePass now b = b := by
    rw [hb]; exact prunePass_idem now a
  unfold noShowPass
  by_cases h : (decide (b.date < now - 60) && isActive b.status) = true
  · rw [if_pos h]
    have hpp : prunePass now { b with status := Status.noShow } =
        { b with status := Status.noShow } := by
      have : pruneOld now b.reminders = b.reminders := congrArg Appt.reminders hpb
      simp [prunePass, this]
    rw [hpp]
    simp [isActive]
  · rw [if_neg h, hpb, if_neg h]

/-- C9: the cleanup sweep (pruning week-old sent reminders and flipping
overdue scheduled/confirmed appointments to no-show) is idempotent:
running it twice at the same instant equals running it once. -/
theorem c9_cleanup_sweep_idempotent (now : Int) (store : List Appt) :
    cleanupSweep now (cleanupSweep now store) = cleanupSweep now store := by
  unfold cleanupSweep
  induction store with
  | nil => rfl
  | cons a rest ih =>
      simp only [List.map_cons]
      rw [cleanup_elem_idem]
      simp only [List.map_cons] at ih
      rw [ih]

/-- C1 (code-bug evaluation): for every date with zero appointments the
available-slots query returns 26 slots, hh:00 and hh:50 for every hour
9..21, not the 15-slot 50-minute-stride template (09:00, 09:50, 10:40, ...,
21:20) documented in the API reference of the repository and stated by the
claim. -/
theorem c1_slot_template_is_26_slots :
    (∀ d : Int, availableSlots [] d =
      ["09:00", "09:50", "10:00", "10:50", "11:00", "11:50", "12:00", "12:50",
       "13:00", "13:50", "14:00", "14:50", "15:00", "15:50", "16:00", "16:50",
       "17:00", "17:50", "18:00", "18:50", "19:00", "19:50", "20:00", "20:50",
       "21:00", "21:50"]) ∧
    generateAllSlots.length = 26 := by
  exact ⟨fun d => rfl, rfl⟩

/-- C2 (code-bug evaluation): the cleanup sweep flips an appointment whose
computed end time is still 19 hours in the FUTURE (date at midnight of
day 0, start 21:00, 50 minutes, end 21:50 = minute 1310) to no-show when
run at 02:00 of that same day (minute 120), because it compares the
midnight date field against now minus 1 hour instead of the end time. -/
theorem c2_cleanup_flips_future_appointment :
    let a : Appt := ⟨1, 1, 0, "21:00", SessionType.individual,
      Status.scheduled, 50, "", 500, [], none, none, none, none⟩
    (cleanupSweep 120 [a]).map Appt.status = [Status.noShow] ∧
      a.endTime = 1310 ∧ (120 : Int) < a.endTime := by
  decide

lemma canBeCancelled_eq_true {now : Int} {a : Appt}
    (hs : a.status = Status.scheduled) (ht : 1440 < a.datetime - now) :
    canBeCancelled now a = true := by
  simp [canBeCancelled, hs, ht]

lemma canBeCancelled_eq_false {now : Int} {a : Appt}
    (h : a.datetime - now ≤ 1440 ∨ a.status ≠ Status.scheduled) :
    canBeCancelled now a = false := by
  rcases h with h | h
  · have hd : decide (a.datetime - now > 1440) = false := by
      simp; omega
    simp [canBeCancelled, hd]
  · have hd : (a.status == Status.scheduled) = false := by
      simp [h]
    simp [canBeCancelled, hd]

lemma canBeRescheduled_eq_true {now : Int} {a : Appt}
    (hs : a.status = Status.scheduled) (ht : 720 < a.datetime - now) :
    canBeRescheduled now a = true := by
  simp [canBeRescheduled, hs, ht]

lemma canBeRescheduled_eq_false {now : Int} {a : Appt}
    (h : a.status ≠ Status.scheduled ∨ a.datetime - now ≤ 720) :
    canBeRescheduled now a = false := by
  rcases h with h | h
  · have hd : (a.status == Status.scheduled) = false := by
      simp [h]
    simp [canBeRescheduled, hd]
  · have hd : decide (a.datetime - now > 720) = false := by
      simp; omega
    simp [canBeRescheduled, hd]

lemma hasActiveAtExcluding_iff (store : List Appt) (i : Nat) (d : Int) (t : String) :
    hasActiveAtExcluding store i d t = true ↔
      ∃ b ∈ store, b.id ≠ i ∧ b.date = d ∧ b.time = t ∧ isActive b.status = true := by
  simp [hasActiveAtExcluding, List.any_eq_true, and_assoc]

lemma hasActiveAt_iff (store : List Appt) (d : Int) (t : String) :
    hasActiveAt store d t = true ↔
      ∃ b ∈ store, b.date = d ∧ b.time = t ∧ isActive b.status = true := by
  simp [hasActiveAt, List.any_eq_true, and_assoc]

/-- C4 (counterexample): a scheduled appointment with exactly 24 hours of
lead time (datetime minute 3480, now minute 2040) is rejected with the
policy violation, although the claim says at least 24 hours suffices. -/
theorem c4_exact_24h_rejected :
    let a : Appt := ⟨1, 1, 2880, "10:00", SessionType.individual,
      Status.scheduled, 50, "", 500, [], none, none, none, none⟩
    a.datetime - 2040 = 1440 ∧ a.status = Status.scheduled ∧
      cancelRoute 2040 a "conflict" 7 = CancelResult.policyViolation := by
  decide

/-- C4 (amended): with a valid reason, cancel succeeds exactly when the
status is scheduled, STRICTLY more than 24 hours remain, and the save-time
pre-save hook accepts the stored time (hour 9-21, start in the future),
setting status cancelled, the reason, cancelledAt = now and
cancelledBy = actor; with at most 24 hours remaining, or from any other
status, it fails with the policy violation; past the policy gate, a stored
hour outside business hours (reachable through the hook-free update path)
makes the save throw (500) and the appointment is unchanged. -/
theorem c4_amended (now : Int) (a : Appt) (reason : String) (actor : Nat)
    (h1 : 1 ≤ reason.length) (h2 : reason.length ≤ 500) :
    (a.status = Status.scheduled → 1440 < a.datetime - now →
      preSaveHookOk now a = true →
      ∃ a2, cancelRoute now a reason actor = CancelResult.done a2 ∧
        a2.status = Status.cancelled ∧ a2.cancellationReason = some reason ∧
        a2.cancelledAt = some now ∧ a2.cancelledBy = some actor ∧
        a2.date = a.date ∧ a2.time = a.time ∧ a2.user = a.user) ∧
    (a.datetime - now ≤ 1440 ∨ a.status ≠ Status.scheduled →
      cancelRoute now a reason actor = CancelResult.policyViolation) ∧
    (a.status = Status.scheduled → 1440 < a.datetime - now →
      preSaveHookOk now a = false →
      cancelRoute now a reason actor = CancelResult.saveError) := by
  have hre : (decide (1 ≤ reason.length) && decide (reason.length ≤ 500)) = true := by
    simp [h1, h2]
  refine ⟨?_, ?_, ?_⟩
  · intro hs ht hhook
    refine ⟨a.cancelMethod now reason actor, ?_, rfl, rfl, rfl, rfl, rfl, rfl, rfl⟩
    simp [cancelRoute, hre, canBeCancelled_eq_true hs ht, hhook]
  · intro h
    simp [cancelRoute, hre, canBeCancelled_eq_false h]
  · intro hs ht hhook
    simp [cancelRoute, hre, canBeCancelled_eq_true hs ht, hhook]

/-- Witness for c4_amended at a concrete input: a scheduled appointment
starting at minute 3480 (hour 10, hook-valid), cancelled at minute 0 with
reason "sick". -/
theorem c4_amended_witness :
    let a : Appt := ⟨1, 1, 2880, "10:00", SessionType.individual,
      Status.scheduled, 50, "", 500, [], none, none, none, none⟩
    (1 ≤ "sick".length ∧ "sick".length ≤ 500) ∧
    ((a.status = Status.scheduled → 1440 < a.datetime - 0 →
      preSaveHookOk 0 a = true →
      ∃ a2, cancelRoute 0 a "sick" 7 = CancelResult.done a2 ∧
        a2.status = Status.cancelled ∧ a2.cancellationReason = some "sick" ∧
        a2.cancelledAt = some 0 ∧ a2.cancelledBy = some 7 ∧
        a2.date = a.date ∧ a2.time = a.time ∧ a2.user = a.user) ∧
    (a.datetime - 0 ≤ 1440 ∨ a.status ≠ Status.scheduled →
      cancelRoute 0 a "sick" 7 = CancelResult.policyViolation) ∧
    (a.status = Status.scheduled → 1440 < a.datetime - 0 →
      preSaveHookOk 0 a = false →
      cancelRoute 0 a "sick" 7 = CancelResult.saveError)) :=
  ⟨by decide, c4_amended 0 _ "sick" 7 (by decide) (by decide)⟩

/-- C5 (counterexample): (i) a scheduled appointment with exactly 12 hours
of lead time and a free target slot is rejected with the policy violation,
although the claim says at least 12 hours suffices; (ii) with ample lead
time, a target slot occupied by a COMPLETED (hence non-cancelled)
appointment does not raise Conflict: the update succeeds, because the
conflict query only looks at scheduled/confirmed; (iii) an ACTIVE occupant
stored as "9:00" does not block rescheduling onto "09:00" - the same clock
minute - because the query compares the time field by exact string
equality. -/
theorem c5_reschedule_claim_fails :
    let a : Appt := ⟨1, 1, 2880, "10:00", SessionType.individual,
      Status.scheduled, 50, "", 500, [], none, none, none, none⟩
    let b : Appt := ⟨2, 2, 2880, "11:00", SessionType.individual,
      Status.completed, 50, "", 500, [], none, none, none, none⟩
    let c0 : Appt := ⟨3, 3, 2880, "9:00", SessionType.individual,
      Status.scheduled, 50, "", 500, [], none, none, none, none⟩
    let p : Patch := ⟨none, some "11:00", none, none, none, none⟩
    let p2 : Patch := ⟨none, some "09:00", none, none, none, none⟩
    (a.datetime - 2760 = 720 ∧
      updateAppointment 2760 [a] a p = UpdateResult.policyViolation) ∧
    (b.status ≠ Status.cancelled ∧ b.date = 2880 ∧ b.time = "11:00" ∧
      updateAppointment 0 [a, b] a p = UpdateResult.updated { a with time := "11:00" }) ∧
    (isActive c0.status = true ∧ parsedMinutes c0.time = parsedMinutes "09:00" ∧
      updateAppointment 0 [a, c0] a p2 = UpdateResult.updated { a with time := "09:00" }) := by
  decide

/-- C5 (amended): with a valid patch, the update fails with the policy
violation when the status is not scheduled or NOT strictly more than 12
hours remain; from a scheduled appointment with more than 12 hours of lead
time, when date or time change it fails with Conflict exactly when another
appointment with status scheduled or confirmed carries the target date and
the EXACT SAME time string (clock-equal but string-distinct times, such as
9:00 versus 09:00, do not conflict), and otherwise succeeds applying the
patch. -/
theorem c5_amended (now : Int) (store : List Appt) (a : Appt) (p : Patch)
    (hv : patchValid p = true) (hu : updateValidatorsOk now p = true) :
    (a.status ≠ Status.scheduled ∨ a.datetime - now ≤ 720 →
      updateAppointment now store a p = UpdateResult.policyViolation) ∧
    (a.status = Status.scheduled → 720 < a.datetime - now →
      ((p.date.isSome || p.time.isSome) = true →
        ((∃ b ∈ store, b.id ≠ a.id ∧ b.date = p.date.getD a.date ∧
            b.time = p.time.getD a.time ∧ isActive b.status = true) →
          updateAppointment now store a p = UpdateResult.conflict) ∧
        ((¬ ∃ b ∈ store, b.id ≠ a.id ∧ b.date = p.date.getD a.date ∧
            b.time = p.time.getD a.time ∧ isActive b.status = true) →
          updateAppointment now store a p = UpdateResult.updated (applyPatch a p)))) := by
  constructor
  · intro h
    simp [updateAppointment, hv, canBeRescheduled_eq_false h]
  · intro hs ht hchange
    have hcan := canBeRescheduled_eq_true hs ht
    constructor
    · intro hex
      have hb : hasActiveAtExcluding store a.id (p.date.getD a.date)
          (p.time.getD a.time) = true := (hasActiveAtExcluding_iff _ _ _ _).mpr hex
      simp [updateAppointment, hv, hcan, hchange, hb]
    · intro hex
      have hb : hasActiveAtExcluding store a.id (p.date.getD a.date)
          (p.time.getD a.time) = false := by
        rcases hb2 : hasActiveAtExcluding store a.id (p.date.getD a.date)
            (p.time.getD a.time) with _ | _
        · rfl
        · exact absurd ((hasActiveAtExcluding_iff _ _ _ _).mp hb2) hex
      simp [updateAppointment, hv, hcan, hchange, hb, hu]

/-- Witness for c5_amended: rescheduling a lone scheduled appointment from
10:00 to 11:00 on day 2 with 58 hours of lead time. -/
theorem c5_amended_witness :
    let a : Appt := ⟨1, 1, 2880, "10:00", SessionType.individual,
      Status.scheduled, 50, "", 500, [], none, none, none, none⟩
    let p : Patch := ⟨none, some "11:00", none, none, none, none⟩
    (patchValid p = true ∧ updateValidatorsOk 0 p = true) ∧
    ((a.status ≠ Status.scheduled ∨ a.datetime - 0 ≤ 720 →
      updateAppointment 0 [a] a p = UpdateResult.policyViolation) ∧
    (a.status = Status.scheduled → 720 < a.datetime - 0 →
      ((p.date.isSome || p.time.isSome) = true →
        ((∃ b ∈ [a], b.id ≠ a.id ∧ b.date = p.date.getD a.date ∧
            b.time = p.time.getD a.time ∧ isActive b.status = true) →
          updateAppointment 0 [a] a p = UpdateResult.conflict) ∧
        ((¬ ∃ b ∈ [a], b.id ≠ a.id ∧ b.date = p.date.getD a.date ∧
            b.time = p.time.getD a.time ∧ isActive b.status = true) →
          updateAppointment 0 [a] a p = UpdateResult.updated (applyPatch a p))))) :=
  ⟨by decide, c5_amended 0 _ _ _ (by decide) (by decide)⟩

/-- C10: every update through PUT /appointments/:id is gated by
canBeRescheduled regardless of the patched fields: a valid patch touching
neither date nor time is still rejected with the reschedule policy
violation whenever the status is not scheduled or fewer than 12 hours
remain until the start. -/
theorem c10_update_gate_regardless_of_fields (now : Int) (store : List Appt)
    (a : Appt) (p : Patch) (hd : p.date = none) (htm : p.time = none)
    (hv : patchValid p = true)
    (hgate : a.status ≠ Status.scheduled ∨ a.datetime - now < 720) :
    updateAppointment now store a p = UpdateResult.policyViolation := by
  have h : a.status ≠ Status.scheduled ∨ a.datetime - now ≤ 720 := by
    rcases hgate with h | h
    · exact Or.inl h
    · exact Or.inr (by omega)
  simp [updateAppointment, hv, canBeRescheduled_eq_false h]

/-- Witness for c10: a notes-only patch on a CONFIRMED appointment with
ample lead time is still rejected with the policy violation. -/
theorem c10_witness :
    let a : Appt := ⟨1, 1, 2880, "10:00", SessionType.individual,
      Status.confirmed, 50, "", 500, [], none, none, none, none⟩
    let p : Patch := ⟨none, none, none, none, some "note", none⟩
    (p.date = none ∧ p.time = none ∧ patchValid p = true ∧
      (a.status ≠ Status.scheduled ∨ a.datetime - 0 < 720)) ∧
    updateAppointment 0 [a] a p = UpdateResult.policyViolation :=
  ⟨by decide, c10_update_gate_regardless_of_fields 0 [_] _ _ (by decide)
    (by decide) (by decide) (by decide)⟩

/-- C3 (counterexample): (i) a COMPLETED appointment occupies day 2, 10:00;
it is non-cancelled, yet creating another appointment at exactly that
(date, time) succeeds rather than failing with Conflict, because the
conflict query only matches scheduled/confirmed; (ii) an ACTIVE occupant
stored as "9:00" does not block creating at "09:00" - the same clock
minute - because the conflict query compares the time field by exact
string equality, so two non-cancelled appointments can occupy the same
clock slot. -/
theorem c3_completed_occupant_no_conflict :
    let b : Appt := ⟨2, 2, 2880, "10:00", SessionType.individual,
      Status.completed, 50, "", 500, [], none, none, none, none⟩
    let c0 : Appt := ⟨4, 4, 2880, "9:00", SessionType.individual,
      Status.scheduled, 50, "", 500, [], none, none, none, none⟩
    (b.status ≠ Status.cancelled ∧ b.date = 2880 ∧ b.time = "10:00" ∧
      createAppointment 0 [b] 3 5 2880 "10:00" SessionType.individual 50 "" 500 =
        CreateResult.created (newAppt 0 3 5 2880 "10:00" SessionType.individual 50 "" 500)) ∧
    (isActive c0.status = true ∧ parsedMinutes c0.time = parsedMinutes "09:00" ∧
      createAppointment 0 [c0] 3 5 2880 "09:00" SessionType.individual 50 "" 500 =
        CreateResult.created (newAppt 0 3 5 2880 "09:00" SessionType.individual 50 "" 500)) := by
  decide

lemma filter_eq_nil_of_any_eq_false {α : Type} {p : α → Bool} {l : List α}
    (h : l.any p = false) : l.filter p = [] := by
  induction l with
  | nil => rfl
  | cons x xs ih =>
      simp only [List.any_cons, Bool.or_eq_false_iff] at h
      rw [List.filter_cons, if_neg (by simp [h.1]), ih h.2]

/-- C3 (amended): for valid input, createAppointment fails with Conflict
exactly when an appointment with status scheduled or confirmed (not: any
non-cancelled appointment) carries the exact same date and the exact same
time STRING, regardless of owner (clock-equal but string-distinct times,
such as 9:00 versus 09:00, do not conflict); otherwise it succeeds,
creating the appointment in status scheduled, and this preserves
at-most-one-active-appointment per (date, time-string). -/
theorem c3_amended (now : Int) (store : List Appt) (newId user : Nat)
    (d : Int) (t : String) (ty : SessionType) (dur : Int) (notes : String)
    (price : Int)
    (hv : routeValidCreate now d t dur price notes = true)
    (h9 : 9 ≤ timeHours t) (h21 : timeHours t ≤ 21) :
    (createAppointment now store newId user d t ty dur notes price =
        CreateResult.conflict ↔
      ∃ b ∈ store, b.date = d ∧ b.time = t ∧ isActive b.status = true) ∧
    ((¬ ∃ b ∈ store, b.date = d ∧ b.time = t ∧ isActive b.status = true) →
      ∃ a, createAppointment now store newId user d t ty dur notes price =
          CreateResult.created a ∧
        a.status = Status.scheduled ∧ a.date = d ∧ a.time = t ∧ a.user = user ∧
        (atMostOneActivePerSlot store → atMostOneActivePerSlot (a :: store))) := by
  have hnd : now < d := by
    simp [routeValidCreate] at hv
    exact hv.1.1.1.1.1
  have hps : preSaveValid now (newAppt now newId user d t ty dur notes price) = true := by
    have hmod : (0 : Int) ≤ parsedMinutes t := by
      unfold parsedMinutes
      positivity
    simp only [preSaveValid, preSaveHookOk, newAppt, Appt.datetime]
    simp only [Bool.and_eq_true, decide_eq_true_eq]
    exact ⟨hnd, ⟨h9, h21⟩, by omega⟩
  constructor
  · cases hA : hasActiveAt store d t with
    | true =>
        constructor
        · intro _
          exact (hasActiveAt_iff store d t).mp hA
        · intro _
          simp [createAppointment, hv, hA]
    | false =>
        constructor
        · intro hr
          simp [createAppointment, hv, hA, hps] at hr
        · intro hex
          exact absurd ((hasActiveAt_iff store d t).mpr hex) (by simp [hA])
  · intro hex
    have hA : hasActiveAt store d t = false := by
      cases hA2 : hasActiveAt store d t with
      | true => exact absurd ((hasActiveAt_iff store d t).mp hA2) hex
      | false => rfl
    refine ⟨newAppt now newId user d t ty dur notes price, ?_, rfl, rfl, rfl, rfl, ?_⟩
    · simp [createAppointment, hv, hA, hps]
    · intro inv d2 t2
      unfold activeAt
      rw [List.filter_cons]
      by_cases hp : ((newAppt now newId user d t ty dur notes price).date == d2 &&
          (newAppt now newId user d t ty dur notes price).time == t2 &&
          isActive (newAppt now newId user d t ty dur notes price).status) = true
      · have hdt : d = d2 ∧ t = t2 := by
          simpa [newAppt, isActive] using hp
        obtain ⟨hd2, ht2⟩ := hdt
        subst hd2
        subst ht2
        have hfil : store.filter
            (fun b => b.date == d && b.time == t && isActive b.status) = [] := by
          apply filter_eq_nil_of_any_eq_false
          simpa [hasActiveAt] using hA
        rw [if_pos hp]
        simp only [activeAt] at hfil
        rw [hfil]
        simp
      · rw [if_neg hp]
        exact inv d2 t2

/-- Witness for c3_amended: a valid creation at day 2, 10:00 over the empty
store. -/
theorem c3_amended_witness :
    (routeValidCreate 0 2880 "10:00" 50 500 "" = true ∧
      9 ≤ timeHours "10:00" ∧ timeHours "10:00" ≤ 21) ∧
    ((createAppointment 0 [] 3 5 2880 "10:00" SessionType.individual 50 "" 500 =
        CreateResult.conflict ↔
      ∃ b ∈ ([] : List Appt), b.date = 2880 ∧ b.time = "10:00" ∧
        isActive b.status = true) ∧
    ((¬ ∃ b ∈ ([] : List Appt), b.date = 2880 ∧ b.time = "10:00" ∧
        isActive b.status = true) →
      ∃ a, createAppointment 0 [] 3 5 2880 "10:00" SessionType.individual 50 "" 500 =
          CreateResult.created a ∧
        a.status = Status.scheduled ∧ a.date = 2880 ∧ a.time = "10:00" ∧ a.user = 5 ∧
        (atMostOneActivePerSlot [] → atMostOneActivePerSlot (a :: [])))) :=
  ⟨by decide, c3_amended 0 [] 3 5 2880 "10:00" SessionType.individual 50 "" 500
    (by decide) (by decide) (by decide)⟩

lemma mkReminders_spec (now s : Int) :
    ((∃ r ∈ mkReminders now s, r.scheduledFor = s - 1440) ↔ now < s - 1440) ∧
    ((∃ r ∈ mkReminders now s, r.scheduledFor = s - 120) ↔ now < s - 120) ∧
    (s - now = 1800 → mkReminders now s =
      [⟨RType.email, false, none, s - 1440⟩, ⟨RType.email, false, none, s - 120⟩]) ∧
    (s - now = 600 → mkReminders now s = [⟨RType.email, false, none, s - 120⟩]) := by
  unfold mkReminders
  by_cases h24 : s - 1440 > now
  · by_cases h2 : s - 120 > now
    · rw [if_pos h24, if_pos h2]
      refine ⟨?_, ?_, ?_, ?_⟩ <;> simp <;> omega
    · rw [if_pos h24, if_neg h2]
      refine ⟨?_, ?_, ?_, ?_⟩ <;> simp <;> omega
  · by_cases h2 : s - 120 > now
    · rw [if_neg h24, if_pos h2]
      refine ⟨?_, ?_, ?_, ?_⟩ <;> simp <;> omega
    · rw [if_neg h24, if_neg h2]
      refine ⟨?_, ?_, ?_, ?_⟩ <;> simp <;> omega

/-- C7: a created appointment carries a reminder scheduled at start minus
24 hours and one at start minus 2 hours, each present exactly when that
timestamp is still strictly in the future at creation time; booking with
30 hours of lead time yields exactly those two records, booking with 10
hours of lead time yields exactly the 2-hour record. -/
theorem c7_reminder_creation (now : Int) (store : List Appt) (newId user : Nat)
    (d : Int) (t : String) (ty : SessionType) (dur : Int) (notes : String)
    (price : Int) (a : Appt)
    (hc : createAppointment now store newId user d t ty dur notes price =
      CreateResult.created a) :
    ((∃ r ∈ a.reminders, r.scheduledFor = a.datetime - 1440) ↔
      now < a.datetime - 1440) ∧
    ((∃ r ∈ a.reminders, r.scheduledFor = a.datetime - 120) ↔
      now < a.datetime - 120) ∧
    (a.datetime - now = 1800 → a.reminders =
      [⟨RType.email, false, none, a.datetime - 1440⟩,
        ⟨RType.email, false, none, a.datetime - 120⟩]) ∧
    (a.datetime - now = 600 → a.reminders =
      [⟨RType.email, false, none, a.datetime - 120⟩]) := by
  have ha : a = newAppt now newId user d t ty dur notes price := by
    unfold createAppointment at hc
    split at hc
    · simp at hc
    · split at hc
      · simp at hc
      · split at hc
        · simp at hc
        · injection hc with h
          exact h.symm
  subst ha
  simpa [newAppt, Appt.datetime] using mkReminders_spec now (d + parsedMinutes t)

/-- Witness for c7_reminder_creation: a booking made at minute 240 for a
start at minute 2040 (exactly 30 hours of lead time) over the empty store
yields exactly the 24-hour and 2-hour reminder records. -/
theorem c7_reminder_creation_witness :
    let a : Appt := newAppt 240 1 1 1440 "10:00" SessionType.individual 50 "" 500
    (createAppointment 240 [] 1 1 1440 "10:00" SessionType.individual 50 "" 500 =
      CreateResult.created a) ∧
    (((∃ r ∈ a.reminders, r.scheduledFor = a.datetime - 1440) ↔
      240 < a.datetime - 1440) ∧
    ((∃ r ∈ a.reminders, r.scheduledFor = a.datetime - 120) ↔
      240 < a.datetime - 120) ∧
    (a.datetime - 240 = 1800 → a.reminders =
      [⟨RType.email, false, none, a.datetime - 1440⟩,
        ⟨RType.email, false, none, a.datetime - 120⟩]) ∧
    (a.datetime - 240 = 600 → a.reminders =
      [⟨RType.email, false, none, a.datetime - 120⟩])) :=
  ⟨by decide, c7_reminder_creation 240 [] 1 1 1440 "10:00" SessionType.individual
    50 "" 500 _ (by decide)⟩

lemma flipFirstDue_of_no_due (now : Int) (rs : List Reminder)
    (h : ∀ r ∈ rs, ¬(r.sent = false ∧ r.scheduledFor ≤ now)) :
    flipFirstDue now rs = rs := by
  induction rs with
  | nil => rfl
  | cons r rest ih =>
      have hr := h r (by simp)
      unfold flipFirstDue
      rw [if_neg]
      · rw [ih (fun x hx => h x (by simp [hx]))]
      · cases hs : r.sent with
        | true => simp [hs]
        | false =>
            have hnle : ¬(r.scheduledFor ≤ now) := fun hle => hr ⟨hs, hle⟩
            simp [hs, hnle]

end Clinic
